import Mathlib

/-!
Verification of the test-plan repository maintenance scripts.

The configuration loaded from YAML is modelled by the inductive type `Val`
(mappings keep insertion order, as Python dicts do).  The recursive walker
`extract_files_from_config` / `process_section`, the validators, the
text-level page-count reconciliation, the field normalisation pass and the
one-off category split are translated from the Python sources
(validate_config.py, testplan_tools.py, fix_config.py, validate_mappings.py).
-/

/-- A YAML value as loaded by the scripts: the Python universe of strings,
integers, booleans, None, lists and (insertion-ordered) dicts. -/
inductive Val where
  | vstr : String → Val
  | vint : Int → Val
  | vbool : Bool → Val
  | vnull : Val
  | vlist : List Val → Val
  | vmap : List (String × Val) → Val

/-- Python dict key lookup (dict keys are unique; we take the first binding). -/
def lookup : List (String × Val) → String → Option Val
  | [], _ => none
  | (k, v) :: rest, key => if k = key then some v else lookup rest key

/-- Is the first character list a prefix of the second? -/
def listPrefixB : List Char → List Char → Bool
  | [], _ => true
  | _ :: _, [] => false
  | a :: as, b :: bs => a == b && listPrefixB as bs

/-- Does the first character list occur inside the second? -/
def listInfixB (pat : List Char) : List Char → Bool
  | [] => pat.isEmpty
  | c :: rest => listPrefixB pat (c :: rest) || listInfixB pat rest

/-- Python substring test: `pat in s`. -/
def strContains (s pat : String) : Bool := listInfixB pat.data s.data

/-- Python `s.startswith(pre)`. -/
def strStartsWith (s pre : String) : Bool := listPrefixB pre.data s.data

/-- Python `s.endswith(suf)`. -/
def strEndsWith (s suf : String) : Bool := listPrefixB suf.data.reverse s.data.reverse

/-- Python `s.lower()` (ASCII case folding; the configurations contain no
cased non-ASCII text). -/
def strToLower (s : String) : String := String.mk (s.data.map Char.toLower)

/-- Python iteration over a value.  A dict iterates its keys and a string its
characters; iterating an int, bool or None raises a TypeError in Python, which
never happens on the configurations these scripts are run on, so those cases
are mapped to the empty iteration here. -/
def iterElems : Val → List Val
  | .vlist xs => xs
  | .vmap kvs => kvs.map (fun kv => Val.vstr kv.1)
  | .vstr s => s.data.map (fun c => Val.vstr (String.mk [c]))
  | _ => []

/-- Keys at which `process_section` does not recurse
(validate_config.py line 91 / testplan_tools.py line 100). -/
def excludedSubKeys : List String := ["specs", "test_plans", "spec", "category", "description"]

/-- Top-level keys skipped by `extract_files_from_config`
(validate_config.py line 100 / testplan_tools.py line 109). -/
def excludedTopKeys : List String := ["version", "last_updated", "description", "stats", "directories"]

/-- The loop body over one list-valued key: for each contained dict record
with a `file` key, emit `(spec['file'], spec.get('pages', 'unknown'), category)`
(validate_config.py lines 66-71). -/
def emitRecords (items : List Val) (category : String) : List (Val × Val × String) :=
  items.filterMap fun item =>
    match item with
    | .vmap kvs =>
        match lookup kvs "file" with
        | some f => some (f, (lookup kvs "pages").getD (.vstr "unknown"), category)
        | none => none
    | _ => none

/-- The guarded list-key loop `if key in section_data and section_data[key] is not None: ...`
(validate_config.py lines 66-87). -/
def listKeyRecords (kvs : List (String × Val)) (key : String) (category : String) :
    List (Val × Val × String) :=
  match lookup kvs key with
  | some .vnull => []
  | some v => emitRecords (iterElems v) category
  | none => []

mutual

/-- The function `process_section` of validate_config.py lines 62-96 (identical in
testplan_tools.py lines 71-105): collect records under the three list-valued
keys, then recurse into the remaining keys extending the subsection label,
and into list elements with the label unchanged. -/
def process_section : Val → String → String → List (Val × Val × String)
  | .vmap kvs, section_name, subsection =>
      listKeyRecords kvs "specs" (section_name ++ ".specs" ++ subsection) ++
      listKeyRecords kvs "test_plans" (section_name ++ ".test_plans" ++ subsection) ++
      listKeyRecords kvs "spec" (section_name ++ ".spec" ++ subsection) ++
      processEntries kvs section_name subsection
  | .vlist items, section_name, subsection => processItems items section_name subsection
  | _, _, _ => []

/-- The `for key, value in section_data.items()` recursion loop
(validate_config.py lines 90-92). -/
def processEntries : List (String × Val) → String → String → List (Val × Val × String)
  | [], _, _ => []
  | (key, value) :: rest, section_name, subsection =>
      (if key ∈ excludedSubKeys then []
       else process_section value section_name (subsection ++ "." ++ key)) ++
      processEntries rest section_name subsection

/-- The `for item in section_data` loop over a list node
(validate_config.py lines 94-96). -/
def processItems : List Val → String → String → List (Val × Val × String)
  | [], _, _ => []
  | item :: rest, section_name, subsection =>
      process_section item section_name subsection ++ processItems rest section_name subsection

end

/-- The function `extract_files_from_config` of validate_config.py lines 55-103
(identical in testplan_tools.py lines 64-112). -/
def extract_files_from_config (config : List (String × Val)) : List (Val × Val × String) :=
  config.foldr
    (fun kv acc =>
      (if kv.1 ∈ excludedTopKeys then [] else process_section kv.2 kv.1 "") ++ acc) []

/-! ## A path-based description of the walker

`specWalk` is the specification-side account of the traversal: an explicit
visitor carrying the category path as an ordered list of intermediate keys.
It returns, for every document record the traversal visits (whether or not
the record carries a `file` key), the record itself together with the
list-valued key it was found under and the intermediate-key path.  The
refinement theorems below compare it with the walker translated from the
source and make the walker's exactly-once discovery and category labelling
explicit. -/

/-- The dict records contained in the (non-null) value found under one of the
three list-valued keys. -/
def recordsUnder (kvs : List (String × Val)) (key : String) : List (List (String × Val)) :=
  match lookup kvs key with
  | some .vnull => []
  | some v => (iterElems v).filterMap fun item =>
      match item with
      | .vmap r => some r
      | _ => none
  | none => []

mutual

/-- Specification-side traversal with an explicit path accumulator. -/
def specWalk : Val → List String → List (List (String × Val) × String × List String)
  | .vmap kvs, path =>
      (recordsUnder kvs "specs").map (fun r => (r, "specs", path)) ++
      (recordsUnder kvs "test_plans").map (fun r => (r, "test_plans", path)) ++
      (recordsUnder kvs "spec").map (fun r => (r, "spec", path)) ++
      specWalkEntries kvs path
  | .vlist items, path => specWalkItems items path
  | _, _ => []

def specWalkEntries : List (String × Val) → List String → List (List (String × Val) × String × List String)
  | [], _ => []
  | (key, value) :: rest, path =>
      (if key ∈ excludedSubKeys then [] else specWalk value (path ++ [key])) ++
      specWalkEntries rest path

def specWalkItems : List Val → List String → List (List (String × Val) × String × List String)
  | [], _ => []
  | item :: rest, path => specWalk item path ++ specWalkItems rest path

end

/-- Dot-joining a key sequence into a category label. -/
def dotJoined : List String → String
  | [] => ""
  | [k] => k
  | k :: ks => k ++ "." ++ dotJoined ks

/-- The subsection accumulator the source threads through `process_section`:
the intermediate keys each preceded by a dot. -/
def dotPre (mids : List String) : String :=
  mids.foldl (fun acc k => acc ++ "." ++ k) ""

/-- The triple emitted for a visited record carrying a `file` key; a record
without one yields nothing. -/
def fileTriple (category : String) (r : List (String × Val)) : Option (Val × Val × String) :=
  match lookup r "file" with
  | some f => some (f, (lookup r "pages").getD (.vstr "unknown"), category)
  | none => none

/-- Every record the traversal visits, with its category label: the top-level
key, then the list-valued key it was found under, then the intermediate keys,
dot-joined. -/
def visitedRecords (config : List (String × Val)) : List (List (String × Val) × String) :=
  config.foldr
    (fun kv acc =>
      (if kv.1 ∈ excludedTopKeys then []
       else (specWalk kv.2 []).map fun e => (e.1, dotJoined (kv.1 :: e.2.1 :: e.2.2))) ++ acc) []

/-- The specification-side description of the walker output: one triple per
visited record that carries a `file` key. -/
def specTriples (config : List (String × Val)) : List (Val × Val × String) :=
  (visitedRecords config).filterMap fun rc => fileTriple rc.2 rc.1

/-- The triple a visited-record entry of `specWalk` gives rise to, with the
category written in the source's appended form. -/
def tripleOf (sec : String) (e : List (String × Val) × String × List String) :
    Option (Val × Val × String) :=
  fileTriple (sec ++ "." ++ e.2.1 ++ dotPre e.2.2) e.1

/-! ## Python conversions: str(), repr(), int() -/

mutual

/-- Python `repr`.  Strings are rendered with single quotes; Python's switch
to double quotes for strings containing a quote, and its character escaping,
are not modelled (no configuration value in these scripts contains them). -/
def pyRepr : Val → String
  | .vstr s => "'" ++ s ++ "'"
  | .vint n => toString n
  | .vbool b => if b then "True" else "False"
  | .vnull => "None"
  | .vlist xs => "[" ++ String.intercalate ", " (pyReprList xs) ++ "]"
  | .vmap kvs => "\x7b" ++ String.intercalate ", " (pyReprKvs kvs) ++ "\x7d"

def pyReprList : List Val → List String
  | [] => []
  | x :: rest => pyRepr x :: pyReprList rest

def pyReprKvs : List (String × Val) → List String
  | [] => []
  | (k, v) :: rest => ("'" ++ k ++ "': " ++ pyRepr v) :: pyReprKvs rest

end

/-- Python `str`: the identity on strings, `repr` on everything else the
scripts format. -/
def pyStr : Val → String
  | .vstr s => s
  | v => pyRepr v

/-- Python `int(string)`: strip surrounding whitespace, optional sign, then
decimal digits (underscore digit separators are not modelled). -/
def parseIntStr (s : String) : Option Int :=
  let core : List Char → Option Nat := fun ds =>
    if ds.isEmpty then none
    else if ds.all Char.isDigit
    then some (ds.foldl (fun acc c => acc * 10 + (c.toNat - 48)) 0)
    else none
  let trimmed := ((s.data.dropWhile Char.isWhitespace).reverse.dropWhile Char.isWhitespace).reverse
  match trimmed with
  | '+' :: ds => (core ds).map (fun n => (n : Int))
  | '-' :: ds => (core ds).map (fun n => -(n : Int))
  | ds => (core ds).map (fun n => (n : Int))

/-- Python `int(value)` as used by the scripts inside try/except: an int (or
bool, a subclass of int) converts directly, a string is parsed, everything
else raises TypeError, modelled as `none`. -/
def pyInt : Val → Option Int
  | .vint n => some n
  | .vbool b => some (if b then 1 else 0)
  | .vstr s => parseIntStr s
  | _ => none

/-- Python truthiness. -/
def pyFalsy : Val → Bool
  | .vnull => true
  | .vbool b => !b
  | .vint n => n == 0
  | .vstr s => s == ""
  | .vlist xs => xs.isEmpty
  | .vmap kvs => kvs.isEmpty

/-! ## The reference validators

`validate_config_files` (testplan_tools.py lines 115-187) and
`validate_files` (validate_config.py lines 105-167) are identical except that
only the former begins with the external-document skip.  The filesystem is
abstracted by `FS`; file paths are typed `String`, following the sources'
own annotation `List[Tuple[str, Any, str]]`. -/

/-- The filesystem effects the validators perform: `os.path.exists`, reading
the first four bytes (or failing with an error message), and
`get_pdf_page_count` (which returns None when the count cannot be
determined). -/
structure FS where
  pathExists : String → Bool
  read4 : String → Except String String
  pageCount : String → Option Int

/-- How the per-file checks classify one `(file_path, expected_pages)` pair. -/
inductive Outcome where
  | skippedExternal
  | missingFile
  | skippedNonPdf
  | invalidHeader
  | readFailed (msg : String)
  | skippedSentinelPages
  | skippedNoPageCount
  | pageMismatch (actual : Int)
  | pageCorrect
  | skippedUnparsablePages

/-- The external-document condition of testplan_tools.py lines 129-133. -/
def isExternalRef (file_path : String) (expected_pages : Val) : Bool :=
  strStartsWith file_path "Available" ||
  strContains (pyStr expected_pages) "external document" ||
  strContains (strToLower file_path) "requires registration"

/-- The checks shared by both validators, in source order: existence,
extension, `%PDF` signature, string page sentinels, page count retrieval,
integer parse, comparison (validate_config.py lines 119-165). -/
def checkLocal (fs : FS) (file_path : String) (expected_pages : Val) : Outcome :=
  if !(fs.pathExists file_path) then .missingFile
  else if !(strEndsWith (strToLower file_path) ".pdf") then .skippedNonPdf
  else
    match fs.read4 file_path with
    | .error e => .readFailed e
    | .ok header =>
        if header ≠ "%PDF" then .invalidHeader
        else if (match expected_pages with
                 | .vstr s =>
                     strContains (strToLower s) "error" ||
                     strToLower s = "unknown" || strToLower s = "n/a"
                 | _ => false)
        then .skippedSentinelPages
        else
          match fs.pageCount file_path with
          | none => .skippedNoPageCount
          | some actual =>
              match pyInt expected_pages with
              | none => .skippedUnparsablePages
              | some e => if actual ≠ e then .pageMismatch actual else .pageCorrect

/-- The per-file classification of testplan_tools.py lines 124-185: the
external-document skip, then the shared checks. -/
def checkOne (fs : FS) (file_path : String) (expected_pages : Val) : Outcome :=
  if isExternalRef file_path expected_pages then .skippedExternal
  else checkLocal fs file_path expected_pages

/-- Appending one classified file to the three result lists
`(missing_files, invalid_files, page_mismatches)`. -/
def applyOutcome (acc : List String × List String × List (String × Int × Val))
    (file_path : String) (expected_pages : Val) (category : String) (o : Outcome) :
    List String × List String × List (String × Int × Val) :=
  match o with
  | .missingFile => (acc.1 ++ [file_path ++ " (from " ++ category ++ ")"], acc.2.1, acc.2.2)
  | .invalidHeader => (acc.1, acc.2.1 ++ [file_path ++ " (not a valid PDF file)"], acc.2.2)
  | .readFailed e => (acc.1, acc.2.1 ++ [file_path ++ " (cannot read file: " ++ e ++ ")"], acc.2.2)
  | .pageMismatch actual => (acc.1, acc.2.1, acc.2.2 ++ [(file_path, actual, expected_pages)])
  | _ => acc

/-- The function `validate_config_files` of testplan_tools.py lines 115-187. -/
def validate_config_files (fs : FS) (files : List (String × Val × String)) :
    List String × List String × List (String × Int × Val) :=
  files.foldl (fun acc f => applyOutcome acc f.1 f.2.1 f.2.2 (checkOne fs f.1 f.2.1)) ([], [], [])

/-- The function `validate_files` of validate_config.py lines 105-167: the same loop
without the external-document skip. -/
def validate_files (fs : FS) (files : List (String × Val × String)) :
    List String × List String × List (String × Int × Val) :=
  files.foldl (fun acc f => applyOutcome acc f.1 f.2.1 f.2.2 (checkLocal fs f.1 f.2.1)) ([], [], [])

/-! ## Text-level page-count reconciliation -/

/-- Python `str.replace` on character lists: replace the leftmost occurrence
of the (non-empty) pattern, continue after the replacement, never rescanning
into it.  The first argument is recursion fuel; every call site supplies at
least the length of the scanned list, which the scan never exceeds. -/
def replaceAllAux : Nat → List Char → Char → List Char → List Char → List Char
  | 0, s, _, _, _ => s
  | _ + 1, [], _, _, _ => []
  | n + 1, c :: rest, p, ps, rep =>
      if listPrefixB (p :: ps) (c :: rest)
      then rep ++ replaceAllAux n (rest.drop ps.length) p ps rep
      else c :: replaceAllAux n rest p ps rep

/-- Python `content.replace(pat, rep)` (the scripts never call it with an
empty pattern). -/
def replaceAll (s pat rep : String) : String :=
  match pat.data with
  | [] => s
  | p :: ps => String.mk (replaceAllAux s.data.length s.data p ps rep.data)

/-- The number of (leftmost, non-overlapping) occurrences of a non-empty
pattern, with the same fuel device. -/
def countOccAux : Nat → List Char → Char → List Char → Nat
  | 0, _, _, _ => 0
  | _ + 1, [], _, _ => 0
  | n + 1, c :: rest, p, ps =>
      if listPrefixB (p :: ps) (c :: rest)
      then 1 + countOccAux n (rest.drop ps.length) p ps
      else countOccAux n rest p ps

def countOcc (s pat : String) : Nat :=
  match pat.data with
  | [] => 0
  | p :: ps => countOccAux s.data.length s.data p ps

/-- The mismatch loop of `update_config_with_actual_pages`
(validate_config.py lines 219-228): for each mismatch `(path, actual,
expected)`, if `pages: <expected>` occurs in the content, replace all its
occurrences with `pages: <actual>` and count one change. -/
def update_config_text (content : String) (page_mismatches : List (String × Int × Val)) :
    String × Nat :=
  page_mismatches.foldl
    (fun acc m =>
      let old_pattern := "pages: " ++ pyStr m.2.2
      let new_pattern := "pages: " ++ toString m.2.1
      if strContains acc.1 old_pattern
      then (replaceAll acc.1 old_pattern new_pattern, acc.2 + 1)
      else acc)
    (content, 0)

/-- The function `update_config_with_actual_pages` of validate_config.py lines 207-238
(identical in testplan_tools.py lines 229-260), as a function from the
on-disk text to the resulting on-disk text plus the returned boolean: the
file is rewritten only when at least one pattern was found. -/
def update_config_with_actual_pages (content : String)
    (page_mismatches : List (String × Int × Val)) : String × Bool :=
  if page_mismatches.isEmpty then (content, false)
  else
    let r := update_config_text content page_mismatches
    if r.2 > 0 then (r.1, true) else (content, false)

/-! ## fix_config.py: field normalisation and the category split -/

/-- The function `fix_pages_field` of fix_config.py lines 8-19.  Python's
`isinstance(value, int)` is also true of booleans, so they pass through the
first branch unchanged. -/
def fix_pages_field (value : Val) : Val :=
  match value with
  | .vint n => .vint n
  | .vbool b => .vbool b
  | .vstr s =>
      if s = "N/A" || s = "N/A (external document)" then .vnull
      else
        match parseIntStr s with
        | some n => .vint n
        | none => .vnull
  | _ => .vnull

/-- The function `fix_version_field` of fix_config.py lines 21-25. -/
def fix_version_field (value : Val) : Val :=
  match value with
  | .vstr s => if s = "N/A" || s = "n/a" || s = "" then .vnull else .vstr s
  | v => if pyFalsy v then .vnull else .vstr (pyStr v)

/-- The function `determine_access` of fix_config.py lines 27-37. -/
def determine_access (item : List (String × Val)) : String :=
  match (lookup item "file").getD (.vstr "") with
  | .vstr s =>
      if strStartsWith s "Available" then "external"
      else if strContains (strToLower s) "requires registration" then "requires_registration"
      else if strStartsWith s "http" then "external"
      else "local"
  | _ => "local"

/-- Python `doc[key] = v`: update the existing binding in place, or append a
new one. -/
def dictSet : List (String × Val) → String → Val → List (String × Val)
  | [], key, v => [(key, v)]
  | (k, v0) :: rest, key, v =>
      if k = key then (k, v) :: rest else (k, v0) :: dictSet rest key v

/-- The statement `if 'pages' in doc: doc['pages'] = fix_pages_field(doc['pages'])`
(fix_config.py lines 42-43). -/
def fixPagesStep (doc : List (String × Val)) : List (String × Val) :=
  match lookup doc "pages" with
  | some p => dictSet doc "pages" (fix_pages_field p)
  | none => doc

/-- The statement `if 'version' in doc: doc['version'] = fix_version_field(doc['version'])`
(fix_config.py lines 46-47). -/
def fixVersionStep (doc : List (String × Val)) : List (String × Val) :=
  match lookup doc "version" with
  | some vv => dictSet doc "version" (fix_version_field vv)
  | none => doc

/-- The statement `if 'access' not in doc: doc['access'] = determine_access(doc)`
(fix_config.py lines 50-51). -/
def addAccessStep (doc : List (String × Val)) : List (String × Val) :=
  if (lookup doc "access").isSome then doc
  else dictSet doc "access" (.vstr (determine_access doc))

/-- The statement `if 'standard' in doc and 'organization' not in doc: ...`
(fix_config.py lines 54-61).  (A non-string `standard` raises
AttributeError in the source; here it adds nothing.) -/
def addOrganizationStep (doc : List (String × Val)) : List (String × Val) :=
  match lookup doc "standard" with
  | some (.vstr std) =>
      if (lookup doc "organization").isSome then doc
      else if strStartsWith std "IEEE" then dictSet doc "organization" (.vstr "IEEE")
      else if strStartsWith std "RFC" then dictSet doc "organization" (.vstr "IETF")
      else if strStartsWith std "USB" then dictSet doc "organization" (.vstr "USB-IF")
      else doc
  | some _ => doc
  | none => doc

/-- The function `process_document` of fix_config.py lines 39-63: normalise `pages` and
`version` in place, add `access` when missing, and derive `organization`
from a recognised `standard` prefix when missing. -/
def process_document (doc : List (String × Val)) : List (String × Val) :=
  addOrganizationStep (addAccessStep (fixVersionStep (fixPagesStep doc)))

/-- A normalised `pages` value: an integer (booleans included, Python
subclasses bool under int) or null — in particular never a string. -/
def pagesNormalized : Val → Bool
  | .vint _ => true
  | .vbool _ => true
  | .vnull => true
  | _ => false

/-- Python `dict.pop(key)` restricted to its effect on the remaining dict. -/
def removeKey (kvs : List (String × Val)) (key : String) : List (String × Val) :=
  kvs.filter fun kv => kv.1 != key

/-- The split of the `pcie_storage` category, fix_config.py lines 119-142:
remove `pcie_storage`, create `pcie` (category connectivity) and `ufs`
(category storage), and distribute the version entries: keys containing
"Gen" or "PCIe" go to `pcie`, otherwise keys containing "UFS" go to `ufs`,
and any remaining entry goes nowhere. -/
def split_pcie_storage (config : List (String × Val)) : List (String × Val) :=
  match lookup config "pcie_storage" with
  | none => config
  | some pcie_data =>
      let config1 := removeKey config "pcie_storage"
      let versions : List (String × Val) :=
        match pcie_data with
        | .vmap kvs =>
            match lookup kvs "versions" with
            | some (.vmap vs) => vs
            | _ => []
        | _ => []
      let genMatch := fun (key : String) => strContains key "Gen" || strContains key "PCIe"
      let pcieVal := Val.vmap
        [("category", .vstr "connectivity"),
         ("description", .vstr "PCIe interface test specifications"),
         ("versions", .vmap (versions.filter fun kv => genMatch kv.1))]
      let ufsVal := Val.vmap
        [("category", .vstr "storage"),
         ("description", .vstr "Universal Flash Storage interface test specifications"),
         ("versions", .vmap (versions.filter fun kv => !genMatch kv.1 && strContains kv.1 "UFS"))]
      dictSet (dictSet config1 "pcie" pcieVal) "ufs" ufsVal

/-! ## validate_mappings.py and the exit codes -/

/-- The result buckets of `validate_mappings` that determine the exit code
(the orphaned-file buckets only enumerate the filesystem and never affect
the exit code, so they are not modelled). -/
structure MappingResults where
  valid_devices : List Val
  missing_specs : List (Val × String × Val)
  missing_tests : List (Val × String × Val)
  errors : List String

/-- One device's spec or test-plan loop (validate_mappings.py lines 57-88):
an entry with a falsy `path` is a configuration error; an entry whose path
does not exist is missing.  Returns (missing, errors, device_valid).
Non-mapping entries and non-string truthy paths raise in the source and are
outside the modelled domain. -/
def checkItems (pathExists : String → Bool) (device_id : Val) (label metaKey : String)
    (items : List Val) : List (Val × String × Val) × List String × Bool :=
  items.foldl
    (fun acc item =>
      match item with
      | .vmap ikvs =>
          let path := (lookup ikvs "path").getD (.vstr "")
          if pyFalsy path then
            (acc.1, acc.2.1 ++ ["Device " ++ pyStr device_id ++ ": " ++ label ++ " missing path"],
             false)
          else
            match path with
            | .vstr p =>
                if !(pathExists p) then
                  (acc.1 ++ [(device_id, p, (lookup ikvs metaKey).getD (.vstr "unknown"))],
                   acc.2.1, false)
                else acc
            | _ => acc
      | _ => acc)
    ([], [], true)

/-- The device loop of `validate_mappings` (validate_mappings.py lines
34-103), restricted to the buckets that feed the exit code. -/
def validate_mappings_core (pathExists : String → Bool) (data : List (String × Val)) :
    MappingResults :=
  let devices := match lookup data "devices" with
    | some (.vlist ds) => ds
    | _ => []
  devices.foldl
    (fun acc device =>
      match device with
      | .vmap dkvs =>
          let device_id := (lookup dkvs "id").getD (.vstr "unknown")
          let specs := match lookup dkvs "specs" with
            | some (.vlist s) => s
            | _ => []
          let tests := match lookup dkvs "test_plans" with
            | some (.vlist t) => t
            | _ => []
          let rs := checkItems pathExists device_id "spec" "standard" specs
          let rt := checkItems pathExists device_id "test plan" "type" tests
          { valid_devices := acc.valid_devices ++ (if rs.2.2 && rt.2.2 then [device] else []),
            missing_specs := acc.missing_specs ++ rs.1,
            missing_tests := acc.missing_tests ++ rt.1,
            errors := acc.errors ++ rs.2.1 ++ rt.2.1 }
      | _ => acc)
    ⟨[], [], [], []⟩

/-- The exit computation of validate_config.py lines 276-284: success is
`issues == 0` over the three result lists, exit 0 on success and 1
otherwise. -/
def validate_config_exit (fs : FS) (files : List (String × Val × String)) : Nat :=
  let r := validate_files fs files
  if r.1.length + r.2.1.length + r.2.2.length = 0 then 0 else 1

/-- The exit computation of validate_mappings.py lines 231-235:
`sys.exit(1 if total_issues > 0 else 0)` over missing specs, missing test
plans and configuration errors. -/
def validate_mappings_exit (pathExists : String → Bool) (data : List (String × Val)) : Nat :=
  let r := validate_mappings_core pathExists data
  if r.missing_specs.length + r.missing_tests.length + r.errors.length > 0 then 1 else 0

/-- Joining string segments with a separator (the shape of a text in which
every occurrence of the separator is accounted for). -/
def joinSep (sep : String) : List String → String
  | [] => ""
  | [q] => q
  | q :: rest => q ++ sep ++ joinSep sep rest

/-- The join `joinSep` at the character level. -/
def joinSepL (sep : List Char) : List (List Char) → List Char
  | [] => []
  | [q] => q
  | q :: rest => q ++ sep ++ joinSepL sep rest

/-! # Theorems -/

theorem dotPre_concat (mids : List String) (k : String) :
    dotPre (mids ++ [k]) = dotPre mids ++ "." ++ k := by
  simp [dotPre, List.foldl_concat]

theorem foldl_dot_shift (ms : List String) (a : String) :
    List.foldl (fun acc k => acc ++ "." ++ k) a ms =
      a ++ List.foldl (fun acc k => acc ++ "." ++ k) "" ms := by
  induction ms generalizing a with
  | nil => simp
  | cons m ms ih =>
      simp only [List.foldl_cons]
      rw [ih (a ++ "." ++ m), ih ("" ++ "." ++ m)]
      simp [String.append_assoc]

theorem dotJoined_cons (lk : String) (mids : List String) :
    dotJoined (lk :: mids) = lk ++ dotPre mids := by
  induction mids generalizing lk with
  | nil => simp [dotJoined, dotPre]
  | cons m ms ih =>
      show lk ++ "." ++ dotJoined (m :: ms) = lk ++ dotPre (m :: ms)
      rw [ih m]
      show lk ++ "." ++ (m ++ dotPre ms) = lk ++ List.foldl _ ("" ++ "." ++ m) ms
      rw [foldl_dot_shift]
      simp [String.append_assoc, dotPre]

theorem dotJoined_sec (sec lk : String) (mids : List String) :
    dotJoined (sec :: lk :: mids) = sec ++ "." ++ lk ++ dotPre mids := by
  show sec ++ "." ++ dotJoined (lk :: mids) = _
  rw [dotJoined_cons]
  simp [String.append_assoc]

theorem listKeyRecords_eq (kvs : List (String × Val)) (key cat : String) :
    listKeyRecords kvs key cat = (recordsUnder kvs key).filterMap (fileTriple cat) := by
  cases h : lookup kvs key with
  | none => simp [listKeyRecords, recordsUnder, h]
  | some v =>
      cases v with
      | vnull => simp [listKeyRecords, recordsUnder, h]
      | vstr s =>
          simp only [listKeyRecords, recordsUnder, h, emitRecords, List.filterMap_filterMap]
          congr 1
          funext it
          cases it <;> rfl
      | vint n =>
          simp only [listKeyRecords, recordsUnder, h, emitRecords, List.filterMap_filterMap]
          congr 1
          funext it
          cases it <;> rfl
      | vbool b =>
          simp only [listKeyRecords, recordsUnder, h, emitRecords, List.filterMap_filterMap]
          congr 1
          funext it
          cases it <;> rfl
      | vlist xs =>
          simp only [listKeyRecords, recordsUnder, h, emitRecords, List.filterMap_filterMap]
          congr 1
          funext it
          cases it <;> rfl
      | vmap m =>
          simp only [listKeyRecords, recordsUnder, h, emitRecords, List.filterMap_filterMap]
          congr 1
          funext it
          cases it <;> rfl

theorem catShift (sec lk sub : String) :
    sec ++ "." ++ lk ++ sub = sec ++ ("." ++ lk) ++ sub := by
  rw [String.append_assoc sec "." lk]

theorem walkRefineAux :
    ∀ n : Nat,
      (∀ v : Val, sizeOf v ≤ n → ∀ (sec : String) (mids : List String),
        process_section v sec (dotPre mids) = (specWalk v mids).filterMap (tripleOf sec)) ∧
      (∀ kvs : List (String × Val), sizeOf kvs ≤ n → ∀ (sec : String) (mids : List String),
        processEntries kvs sec (dotPre mids) = (specWalkEntries kvs mids).filterMap (tripleOf sec)) ∧
      (∀ items : List Val, sizeOf items ≤ n → ∀ (sec : String) (mids : List String),
        processItems items sec (dotPre mids) = (specWalkItems items mids).filterMap (tripleOf sec)) := by
  intro n
  induction n with
  | zero =>
      refine ⟨?_, ?_, ?_⟩
      · intro v hv; cases v <;> simp_arith at hv
      · intro kvs hk; cases kvs <;> simp_arith at hk
      · intro items hi; cases items <;> simp_arith at hi
  | succ n ih =>
      obtain ⟨ihV, ihK, ihI⟩ := ih
      refine ⟨?_, ?_, ?_⟩
      · intro v hv sec mids
        cases v with
        | vmap kvs =>
            have hk : sizeOf kvs ≤ n := by simp_arith at hv; omega
            simp only [process_section, specWalk, List.filterMap_append, List.filterMap_map,
              ihK kvs hk sec mids, listKeyRecords_eq]
            have hfn : ∀ lk : String,
                (tripleOf sec ∘ fun r => (r, lk, mids)) =
                  fileTriple (sec ++ "." ++ lk ++ dotPre mids) := by
              intro lk; funext r; rfl
            rw [hfn "specs", hfn "test_plans", hfn "spec",
              catShift sec "specs" (dotPre mids), catShift sec "test_plans" (dotPre mids),
              catShift sec "spec" (dotPre mids)]
            rfl
        | vlist items =>
            have hi : sizeOf items ≤ n := by simp_arith at hv; omega
            simpa only [process_section, specWalk] using ihI items hi sec mids
        | vstr s => simp [process_section, specWalk]
        | vint k => simp [process_section, specWalk]
        | vbool b => simp [process_section, specWalk]
        | vnull => simp [process_section, specWalk]
      · intro kvs hk sec mids
        cases kvs with
        | nil => simp [processEntries, specWalkEntries]
        | cons kv rest =>
            obtain ⟨key, value⟩ := kv
            have h1 : sizeOf value ≤ n := by simp_arith at hk; omega
            have h2 : sizeOf rest ≤ n := by simp_arith at hk; omega
            simp only [processEntries, specWalkEntries, List.filterMap_append,
              ihK rest h2 sec mids]
            congr 1
            by_cases hmem : key ∈ excludedSubKeys
            · simp [hmem]
            · simp only [hmem, if_false]
              rw [show dotPre mids ++ "." ++ key = dotPre (mids ++ [key]) from
                (dotPre_concat mids key).symm]
              exact ihV value h1 sec (mids ++ [key])
      · intro items hi sec mids
        cases items with
        | nil => simp [processItems, specWalkItems]
        | cons item rest =>
            have h1 : sizeOf item ≤ n := by simp_arith at hi; omega
            have h2 : sizeOf rest ≤ n := by simp_arith at hi; omega
            simp only [processItems, specWalkItems, List.filterMap_append,
              ihV item h1 sec mids, ihI rest h2 sec mids]

theorem process_section_dotPre (v : Val) (sec : String) (mids : List String) :
    process_section v sec (dotPre mids) = (specWalk v mids).filterMap (tripleOf sec) :=
  (walkRefineAux (sizeOf v)).1 v le_rfl sec mids

theorem extract_eq_specTriples (config : List (String × Val)) :
    extract_files_from_config config = specTriples config := by
  induction config with
  | nil => rfl
  | cons kv rest ih =>
      obtain ⟨k, v⟩ := kv
      simp only [extract_files_from_config, specTriples, visitedRecords, List.foldr_cons,
        List.filterMap_append] at *
      rw [ih]
      congr 1
      by_cases hmem : k ∈ excludedTopKeys
      · simp [hmem]
      · simp only [hmem, if_false, List.filterMap_map]
        rw [show ("" : String) = dotPre [] from rfl, process_section_dotPre]
        congr 1
        funext e
        show tripleOf k e = fileTriple (dotJoined (k :: e.2.1 :: e.2.2)) e.1
        rw [dotJoined_sec, tripleOf]

/-- C1 counterexample: on the USB4 tree the walker emits the category
"usb.specs.versions.USB4", while the dot-joined sequence of keys traversed
from the top-level key down to the record is "usb.versions.USB4.specs"; and
a record nested under a key named "category" is reachable through mappings
yet never emitted. -/
theorem walker_category_not_traversal_order :
    extract_files_from_config
      [("usb", .vmap [("versions", .vmap [("USB4", .vmap [("specs",
        .vlist [.vmap [("file", .vstr "specs/usb4.pdf"), ("pages", .vint 50)]])])])])] =
      [(.vstr "specs/usb4.pdf", .vint 50, "usb.specs.versions.USB4")] ∧
    dotJoined ["usb", "versions", "USB4", "specs"] = "usb.versions.USB4.specs" ∧
    "usb.specs.versions.USB4" ≠ "usb.versions.USB4.specs" ∧
    extract_files_from_config
      [("top", .vmap [("category", .vmap [("specs",
        .vlist [.vmap [("file", .vstr "x.pdf"), ("pages", .vint 1)]])])])] = [] :=
  ⟨rfl, rfl, by decide, rfl⟩

/-- C1 (amended): for every configuration tree the walker emits exactly the
triples of `specTriples`: one triple per record visited by the traversal
(which skips the excluded top-level keys, does not descend through
specs/test_plans/spec/category/description, and collects records carrying a
`file` key from the three list-valued keys), with category label equal to
the top-level key, then the list-valued key the record was found under,
then the dot-joined intermediate keys. -/
theorem walker_emits_one_triple_per_visited_record :
    ∀ config : List (String × Val), extract_files_from_config config = specTriples config :=
  fun config => extract_eq_specTriples config

/-- C8: the walker never emits a triple for a visited record lacking a
`file` key, and a visited record with a `file` key but no `pages` key is
emitted with the literal string "unknown" as its declared pages; shown both
as the filterMap characterisation over all configurations and on a concrete
tree containing one record of each kind. -/
theorem walker_requires_file_and_defaults_pages_to_unknown :
    (∀ config : List (String × Val),
      extract_files_from_config config =
        (visitedRecords config).filterMap (fun rc =>
          match lookup rc.1 "file" with
          | some f => some (f, (lookup rc.1 "pages").getD (.vstr "unknown"), rc.2)
          | none => none)) ∧
    extract_files_from_config
      [("top", .vmap [("specs", .vlist
        [.vmap [("pages", .vint 3)], .vmap [("file", .vstr "a.pdf")]])])] =
      [(.vstr "a.pdf", .vstr "unknown", "top.specs")] := by
  constructor
  · intro config
    rw [extract_eq_specTriples]
    rfl
  · rfl

/-- C6: on the nested USB4 tree the walker yields exactly the triple
("specs/usb4.pdf", 50, "usb.specs.versions.USB4"), and equal inputs always
yield the same output sequence. -/
theorem usb4_tree_yields_single_triple :
    extract_files_from_config
      [("usb", .vmap [("versions", .vmap [("USB4", .vmap [("specs",
        .vlist [.vmap [("file", .vstr "specs/usb4.pdf"), ("pages", .vint 50)]])])])])] =
      [(.vstr "specs/usb4.pdf", .vint 50, "usb.specs.versions.USB4")] ∧
    ∀ c₁ c₂ : List (String × Val), c₁ = c₂ →
      extract_files_from_config c₁ = extract_files_from_config c₂ :=
  ⟨rfl, fun _ _ h => by rw [h]⟩

/-- C6 witness: the theorem applied at the USB4 tree itself. -/
theorem usb4_tree_yields_single_triple_witness :
    extract_files_from_config [("usb", Val.vmap [("versions", Val.vmap [("USB4", Val.vmap [("specs",
        Val.vlist [Val.vmap [("file", Val.vstr "specs/usb4.pdf"), ("pages", Val.vint 50)]])])])])] =
      extract_files_from_config [("usb", Val.vmap [("versions", Val.vmap [("USB4", Val.vmap [("specs",
        Val.vlist [Val.vmap [("file", Val.vstr "specs/usb4.pdf"), ("pages", Val.vint 50)]])])])])] :=
  usb4_tree_yields_single_triple.2 _ _ rfl

/-- C2 counterexample. -/
theorem validate_files_reports_external_ref_missing :
    isExternalRef "Available from IEEE" (.vstr "N/A (external document)") = true ∧
    validate_files
      ⟨fun _ => false, fun _ => .error "unreadable", fun _ => none⟩
      [("Available from IEEE", .vstr "N/A (external document)", "usb.specs")] =
      (["Available from IEEE (from usb.specs)"], [], []) :=
  ⟨by decide, rfl⟩

/-- C2 (amended). -/
theorem external_refs_skipped_by_config_files_validator :
    ∀ (fs : FS) (fp : String) (ep : Val) (cat : String),
      isExternalRef fp ep = true →
      checkOne fs fp ep = .skippedExternal ∧
      validate_config_files fs [(fp, ep, cat)] = ([], [], []) ∧
      (fs.pathExists fp = false →
        validate_files fs [(fp, ep, cat)] = ([fp ++ " (from " ++ cat ++ ")"], [], [])) := by
  intro fs fp ep cat h
  have hc : checkOne fs fp ep = .skippedExternal := by simp [checkOne, h]
  refine ⟨hc, ?_, ?_⟩
  · simp [validate_config_files, hc, applyOutcome]
  · intro hex
    simp [validate_files, checkLocal, hex, applyOutcome]

/-- C2 witness. -/
theorem external_refs_skipped_witness :
    checkOne ⟨fun _ => false, fun _ => .error "unreadable", fun _ => none⟩
        "Available from IEEE" (.vstr "N/A (external document)") = .skippedExternal ∧
    validate_config_files ⟨fun _ => false, fun _ => .error "unreadable", fun _ => none⟩
        [("Available from IEEE", .vstr "N/A (external document)", "usb.specs")] = ([], [], []) ∧
    ((⟨fun _ => false, fun _ => .error "unreadable", fun _ => none⟩ : FS).pathExists
        "Available from IEEE" = false →
      validate_files ⟨fun _ => false, fun _ => .error "unreadable", fun _ => none⟩
        [("Available from IEEE", .vstr "N/A (external document)", "usb.specs")] =
        (["Available from IEEE (from usb.specs)"], [], [])) :=
  external_refs_skipped_by_config_files_validator _ "Available from IEEE"
    (.vstr "N/A (external document)") "usb.specs" (by decide)

/-- C4. -/
theorem roundtrip_pages_mismatch_fix :
    countOcc "specs:\n- file: specs/usb4.pdf\n  pages: 37\n" "pages: 37" = 1 ∧
    (update_config_with_actual_pages "specs:\n- file: specs/usb4.pdf\n  pages: 37\n"
        [("specs/usb4.pdf", 42, .vint 37)]).1 =
      "specs:\n- file: specs/usb4.pdf\n  pages: 42\n" ∧
    strContains "specs:\n- file: specs/usb4.pdf\n  pages: 42\n" "pages: 42" = true ∧
    strContains "specs:\n- file: specs/usb4.pdf\n  pages: 42\n" "pages: 37" = false ∧
    validate_files ⟨fun _ => true, fun _ => .ok "%PDF", fun _ => some 42⟩
        [("specs/usb4.pdf", .vint 42, "usb.specs")] = ([], [], []) := by
  refine ⟨by decide, ?_, by decide, by decide, rfl⟩
  rfl

/-- C7. -/
theorem pcie_storage_split_gen_and_ufs :
    ∀ g u : Val,
      split_pcie_storage
        [("pcie_storage", .vmap [("versions", .vmap [("Gen5", g), ("UFS3.1", u)])])] =
        [("pcie", .vmap [("category", .vstr "connectivity"),
            ("description", .vstr "PCIe interface test specifications"),
            ("versions", .vmap [("Gen5", g)])]),
         ("ufs", .vmap [("category", .vstr "storage"),
            ("description", .vstr "Universal Flash Storage interface test specifications"),
            ("versions", .vmap [("UFS3.1", u)])])] := by
  intro g u
  rfl

/-- C10. -/
theorem pcie_storage_split_drops_unmatched_entries :
    ∀ (key : String) (v : Val),
      strContains key "Gen" = false → strContains key "PCIe" = false →
      strContains key "UFS" = false →
      split_pcie_storage
        [("pcie_storage", .vmap [("versions", .vmap [(key, v)])])] =
        [("pcie", .vmap [("category", .vstr "connectivity"),
            ("description", .vstr "PCIe interface test specifications"),
            ("versions", .vmap [])]),
         ("ufs", .vmap [("category", .vstr "storage"),
            ("description", .vstr "Universal Flash Storage interface test specifications"),
            ("versions", .vmap [])])] := by
  intro key v h1 h2 h3
  simp [split_pcie_storage, lookup, removeKey, dictSet, h1, h2, h3]

/-- C10 witness. -/
theorem pcie_storage_split_drops_unmatched_witness :
    split_pcie_storage
      [("pcie_storage", .vmap [("versions", .vmap [("SATA3", .vmap [])])])] =
      [("pcie", .vmap [("category", .vstr "connectivity"),
          ("description", .vstr "PCIe interface test specifications"),
          ("versions", .vmap [])]),
       ("ufs", .vmap [("category", .vstr "storage"),
          ("description", .vstr "Universal Flash Storage interface test specifications"),
          ("versions", .vmap [])])] :=
  pcie_storage_split_drops_unmatched_entries "SATA3" (.vmap []) (by decide) (by decide) (by decide)

theorem pagesNormalized_fix (v : Val) : pagesNormalized (fix_pages_field v) = true := by
  cases v with
  | vint n => rfl
  | vbool b => rfl
  | vnull => rfl
  | vlist xs => rfl
  | vmap kvs => rfl
  | vstr s =>
      simp only [fix_pages_field]
      split
      · rfl
      · cases parseIntStr s <;> rfl

theorem lookup_dictSet_self (d : List (String × Val)) (k : String) (v : Val) :
    lookup (dictSet d k v) k = some v := by
  induction d with
  | nil => simp [dictSet, lookup]
  | cons kv rest ih =>
      obtain ⟨k0, v0⟩ := kv
      by_cases h : k0 = k
      · simp [dictSet, lookup, h]
      · simp [dictSet, lookup, h, ih]

theorem lookup_dictSet_other (d : List (String × Val)) (k k2 : String) (v : Val)
    (h : k2 ≠ k) : lookup (dictSet d k v) k2 = lookup d k2 := by
  induction d with
  | nil => simp [dictSet, lookup, Ne.symm h]
  | cons kv rest ih =>
      obtain ⟨k0, v0⟩ := kv
      by_cases h0 : k0 = k
      · subst h0
        simp [dictSet, lookup, Ne.symm h]
      · by_cases h2 : k0 = k2
        · subst h2
          simp [dictSet, lookup, h0, h]
        · simp [dictSet, lookup, h0, h2, ih]

theorem lookup_pages_fixPagesStep (d : List (String × Val)) :
    lookup (fixPagesStep d) "pages" = (lookup d "pages").map fix_pages_field := by
  cases h : lookup d "pages" <;> simp [fixPagesStep, h, lookup_dictSet_self]

theorem lookup_pages_fixVersionStep (d : List (String × Val)) :
    lookup (fixVersionStep d) "pages" = lookup d "pages" := by
  cases h : lookup d "version" <;>
    simp [fixVersionStep, h,
      lookup_dictSet_other _ _ _ _ (by decide : ("pages" : String) ≠ "version")]

theorem lookup_pages_addAccessStep (d : List (String × Val)) :
    lookup (addAccessStep d) "pages" = lookup d "pages" := by
  unfold addAccessStep
  split
  · rfl
  · exact lookup_dictSet_other _ _ _ _ (by decide : ("pages" : String) ≠ "access")

theorem lookup_pages_addOrganizationStep (d : List (String × Val)) :
    lookup (addOrganizationStep d) "pages" = lookup d "pages" := by
  have hlem : ∀ v : Val, lookup (dictSet d "organization" v) "pages" = lookup d "pages" :=
    fun v => lookup_dictSet_other d "organization" "pages" v (by decide)
  unfold addOrganizationStep
  cases h : lookup d "standard" with
  | none => rfl
  | some sv =>
      cases sv with
      | vstr std =>
          by_cases ho : (lookup d "organization").isSome
          · simp [ho]
          · by_cases h2 : strStartsWith std "IEEE"
            · simp [ho, h2, hlem]
            · by_cases h3 : strStartsWith std "RFC"
              · simp [ho, h2, h3, hlem]
              · by_cases h4 : strStartsWith std "USB"
                · simp [ho, h2, h3, h4, hlem]
                · simp [ho, h2, h3, h4]
      | vint n => rfl
      | vbool b => rfl
      | vnull => rfl
      | vlist xs => rfl
      | vmap m => rfl

theorem lookup_pages_process_document (doc : List (String × Val)) :
    lookup (process_document doc) "pages" = (lookup doc "pages").map fix_pages_field := by
  unfold process_document
  rw [lookup_pages_addOrganizationStep, lookup_pages_addAccessStep,
    lookup_pages_fixVersionStep, lookup_pages_fixPagesStep]

/-- C5 counterexample: a negative declared page count passes through the
normaliser unchanged, so its result is a negative integer, not a
non-negative integer and not null. -/
theorem fix_pages_negative_passthrough :
    fix_pages_field (.vint (-1)) = .vint (-1) ∧ ((-1 : Int) < 0) :=
  ⟨rfl, by decide⟩

/-- C5 (amended): for every input value `fix_pages_field` returns an integer
(booleans included, since Python's bool is a subclass of int) or null —
never a string — and after `process_document` the `pages` field, when
present, satisfies the same property. -/
theorem fix_pages_int_or_null_invariant :
    (∀ v : Val, pagesNormalized (fix_pages_field v) = true) ∧
    (∀ doc : List (String × Val),
      pagesNormalized ((lookup (process_document doc) "pages").getD .vnull) = true) := by
  refine ⟨pagesNormalized_fix, ?_⟩
  intro doc
  rw [lookup_pages_process_document]
  cases h : lookup doc "pages" with
  | none => rfl
  | some p => simpa using pagesNormalized_fix p

/-- C9: validate_config exits 0 exactly when validation found no missing
files, no invalid files and no page mismatches; validate_mappings exits 0
exactly when there are no missing spec files, no missing test-plan files
and no configuration errors; in every other case each exits 1. -/
theorem exit_codes_iff_no_issues :
    (∀ (fs : FS) (files : List (String × Val × String)),
      (validate_config_exit fs files = 0 ↔ validate_files fs files = ([], [], [])) ∧
      (validate_config_exit fs files = 0 ∨ validate_config_exit fs files = 1)) ∧
    (∀ (pathExists : String → Bool) (data : List (String × Val)),
      (validate_mappings_exit pathExists data = 0 ↔
        ((validate_mappings_core pathExists data).missing_specs = [] ∧
         (validate_mappings_core pathExists data).missing_tests = [] ∧
         (validate_mappings_core pathExists data).errors = [])) ∧
      (validate_mappings_exit pathExists data = 0 ∨
        validate_mappings_exit pathExists data = 1)) := by
  constructor
  · intro fs files
    simp only [validate_config_exit]
    rcases hr : validate_files fs files with ⟨m, i, p⟩
    show ((if m.length + i.length + p.length = 0 then 0 else 1) = 0 ↔
        ((m, i, p) : List String × List String × List (String × Int × Val)) = ([], [], [])) ∧
      ((if m.length + i.length + p.length = 0 then 0 else 1) = 0 ∨
        (if m.length + i.length + p.length = 0 then 0 else 1) = 1)
    by_cases hz : m.length + i.length + p.length = 0
    · have hm : m = [] := List.length_eq_zero.mp (by omega)
      have hi : i = [] := List.length_eq_zero.mp (by omega)
      have hp : p = [] := List.length_eq_zero.mp (by omega)
      subst hm; subst hi; subst hp
      simp
    · have hne : ((m, i, p) : List String × List String × List (String × Int × Val)) ≠
          ([], [], []) := by
        intro heq
        simp only [Prod.mk.injEq] at heq
        obtain ⟨rfl, rfl, rfl⟩ := heq
        simp at hz
      refine ⟨⟨fun h0 => ?_, fun heq => absurd heq hne⟩, Or.inr (by rw [if_neg hz])⟩
      rw [if_neg hz] at h0
      exact absurd h0 one_ne_zero
  · intro pathExists data
    simp only [validate_mappings_exit]
    rcases hr : validate_mappings_core pathExists data with ⟨vd, ms, mt, er⟩
    show ((if ms.length + mt.length + er.length > 0 then 1 else 0) = 0 ↔
        (ms = [] ∧ mt = [] ∧ er = [])) ∧
      ((if ms.length + mt.length + er.length > 0 then 1 else 0) = 0 ∨
        (if ms.length + mt.length + er.length > 0 then 1 else 0) = 1)
    by_cases hz : ms.length + mt.length + er.length > 0
    · have hne : ¬(ms = [] ∧ mt = [] ∧ er = []) := by
        rintro ⟨rfl, rfl, rfl⟩
        simp at hz
      refine ⟨⟨fun h0 => ?_, fun heq => absurd heq hne⟩, Or.inr (by rw [if_pos hz])⟩
      rw [if_pos hz] at h0
      exact absurd h0 one_ne_zero
    · have hm : ms = [] := List.length_eq_zero.mp (by omega)
      have ht : mt = [] := List.length_eq_zero.mp (by omega)
      have he : er = [] := List.length_eq_zero.mp (by omega)
      subst hm; subst ht; subst he
      simp

theorem listPrefixB_iff : ∀ p s : List Char, listPrefixB p s = true ↔ p <+: s := by
  intro p
  induction p with
  | nil => intro s; simp [listPrefixB, List.nil_prefix]
  | cons a as ih =>
      intro s
      cases s with
      | nil => simp [listPrefixB]
      | cons b bs =>
          simp only [listPrefixB, Bool.and_eq_true, beq_iff_eq, List.cons_prefix_cons, ih bs]

theorem joinSepL_cons_head (sep : List Char) (c : Char) (q : List Char)
    (qs : List (List Char)) :
    joinSepL sep ((c :: q) :: qs) = c :: joinSepL sep (q :: qs) := by
  cases qs with
  | nil => rfl
  | cons x xs => rfl

theorem q_prefix_joinSepL (sep q : List Char) (qs : List (List Char)) :
    q <+: joinSepL sep (q :: qs) := by
  cases qs with
  | nil => exact List.prefix_refl q
  | cons x xs =>
      show q <+: q ++ sep ++ joinSepL sep (x :: xs)
      rw [List.append_assoc]
      exact List.prefix_append q _

theorem replaceAllAux_decomp (p : Char) (ps rep : List Char) :
    ∀ (n : Nat) (s : List Char), s.length ≤ n →
      ∃ parts : List (List Char), parts ≠ [] ∧
        (∀ q ∈ parts, listInfixB (p :: ps) q = false) ∧
        joinSepL (p :: ps) parts = s ∧
        joinSepL rep parts = replaceAllAux n s p ps rep := by
  intro n
  induction n with
  | zero =>
      intro s hs
      have hnil : s = [] := List.length_eq_zero.mp (Nat.le_zero.mp hs)
      subst hnil
      exact ⟨[[]], by simp, by intro q hq; simp at hq; subst hq; rfl, rfl, rfl⟩
  | succ n ih =>
      intro s hs
      cases s with
      | nil =>
          exact ⟨[[]], by simp, by intro q hq; simp at hq; subst hq; rfl, rfl, rfl⟩
      | cons c rest =>
          by_cases hpre : listPrefixB (p :: ps) (c :: rest) = true
          · obtain ⟨t, ht⟩ := (listPrefixB_iff _ _).mp hpre
            have hct : c :: rest = p :: (ps ++ t) := by
              rw [← ht]; rfl
            have hc : c = p := (List.cons.injEq _ _ _ _ ▸ hct).1
            have hrest : rest = ps ++ t := (List.cons.injEq _ _ _ _ ▸ hct).2
            have hdrop : rest.drop ps.length = t := by
              rw [hrest]; exact List.drop_left ps t
            have hlen : t.length ≤ n := by
              have h1 : rest.length = ps.length + t.length := by
                rw [hrest, List.length_append]
              have h2 : (c :: rest).length = rest.length + 1 := List.length_cons c rest
              omega
            obtain ⟨parts, hne, hinf, hjoin, hrep⟩ := ih t hlen
            cases parts with
            | nil => exact absurd rfl hne
            | cons q0 qs =>
                refine ⟨[] :: q0 :: qs, by simp, ?_, ?_, ?_⟩
                · intro q hq
                  cases hq with
                  | head => rfl
                  | tail b hq => exact hinf q hq
                · show [] ++ (p :: ps) ++ joinSepL (p :: ps) (q0 :: qs) = c :: rest
                  rw [List.nil_append, hjoin, ht]
                · show [] ++ rep ++ joinSepL rep (q0 :: qs) = replaceAllAux (n + 1) (c :: rest) p ps rep
                  rw [List.nil_append, hrep]
                  simp only [replaceAllAux, hpre, if_true, hdrop]
          · have hlen : rest.length ≤ n := by
              have := List.length_cons c rest
              omega
            obtain ⟨parts, hne, hinf, hjoin, hrep⟩ := ih rest hlen
            cases parts with
            | nil => exact absurd rfl hne
            | cons q0 qs =>
                refine ⟨(c :: q0) :: qs, by simp, ?_, ?_, ?_⟩
                · intro q hq
                  cases hq with
                  | tail b hq => exact hinf q (List.mem_cons_of_mem _ hq)
                  | head =>
                    show listInfixB (p :: ps) (c :: q0) = false
                    simp only [listInfixB, Bool.or_eq_false_iff]
                    constructor
                    · -- not a prefix of c :: q0
                      by_contra hb
                      have hb' : listPrefixB (p :: ps) (c :: q0) = true := by
                        cases hx : listPrefixB (p :: ps) (c :: q0)
                        · exact absurd hx hb
                        · rfl
                      have hpq : (p :: ps) <+: (c :: q0) := (listPrefixB_iff _ _).mp hb'
                      have hq0r : q0 <+: rest := by
                        rw [← hjoin]; exact q_prefix_joinSepL _ _ _
                      have hcq : (c :: q0) <+: (c :: rest) := by
                        obtain ⟨t2, ht2⟩ := hq0r
                        exact ⟨t2, by rw [← ht2]; rfl⟩
                      have : (p :: ps) <+: (c :: rest) := hpq.trans hcq
                      exact hpre ((listPrefixB_iff _ _).mpr this)
                    · exact hinf q0 (by simp)
                · rw [joinSepL_cons_head, hjoin]
                · rw [joinSepL_cons_head, hrep]
                  simp [replaceAllAux, hpre]

theorem string_data_inj {a b : String} (h : a.data = b.data) : a = b := by
  cases a; cases b; cases h; rfl

theorem map_data_mk : ∀ l : List (List Char), l.map (String.data ∘ String.mk) = l := by
  intro l
  induction l with
  | nil => rfl
  | cons a rest ih =>
      rw [List.map_cons, ih]
      rfl

theorem joinSep_data (sep : String) : ∀ parts : List String,
    (joinSep sep parts).data = joinSepL sep.data (parts.map String.data)
  | [] => rfl
  | [q] => rfl
  | q :: x :: xs => by
      show (q ++ sep ++ joinSep sep (x :: xs)).data = _
      rw [String.data_append, String.data_append, joinSep_data sep (x :: xs)]
      rfl

/-- C3: the reconciliation rewrite is a global text substitution: for any
single verified mismatch, the content decomposes into segments free of the
pattern "pages: declared", joined by that pattern, and the result is exactly
the same segments joined by "pages: actual" — so every occurrence is
rewritten, as the concrete second part shows for two unrelated records
sharing the declared value while only one mismatch was verified. -/
theorem update_rewrites_every_occurrence :
    (∀ (content path : String) (actual : Int) (declared : Val),
      ∃ parts : List String, parts ≠ [] ∧
        (∀ q ∈ parts, strContains q ("pages: " ++ pyStr declared) = false) ∧
        joinSep ("pages: " ++ pyStr declared) parts = content ∧
        joinSep ("pages: " ++ toString actual) parts =
          (update_config_with_actual_pages content [(path, actual, declared)]).1) ∧
    update_config_with_actual_pages
      "a:\n  pages: 37\nb:\n  pages: 37\n" [("x.pdf", 42, .vint 37)] =
      ("a:\n  pages: 42\nb:\n  pages: 42\n", true) := by
  constructor
  · intro content path actual declared
    set old := "pages: " ++ pyStr declared with hold
    set nw := "pages: " ++ toString actual with hnw
    by_cases hc : strContains content old = true
    · have hres : (update_config_with_actual_pages content [(path, actual, declared)]).1 =
          replaceAll content old nw := by
        simp [update_config_with_actual_pages, update_config_text, hc]
      cases hd : old.data with
      | nil =>
          exfalso
          have hx : "pages: ".data ++ (pyStr declared).data = ([] : List Char) := by
            rw [← String.data_append, ← hold, hd]
          have hA : ("pages: ".data : List Char) = [] := (List.append_eq_nil.mp hx).1
          exact absurd hA (by decide)
      | cons p ps =>
          obtain ⟨partsL, hne, hinf, hjoin, hrep⟩ :=
            replaceAllAux_decomp p ps nw.data content.data.length content.data le_rfl
          refine ⟨partsL.map String.mk, by simpa using hne, ?_, ?_, ?_⟩
          · intro q hq
            obtain ⟨l, hl, rfl⟩ := List.mem_map.mp hq
            show listInfixB old.data (String.mk l).data = false
            rw [hd]
            exact hinf l hl
          · apply string_data_inj
            rw [joinSep_data, List.map_map, map_data_mk, hd, hjoin]
          · apply string_data_inj
            rw [joinSep_data, List.map_map, map_data_mk, hrep, hres]
            simp only [replaceAll, hd]
    · have hcf : strContains content old = false := by
        cases hx : strContains content old
        · rfl
        · exact absurd hx hc
      have hres : (update_config_with_actual_pages content [(path, actual, declared)]).1 =
          content := by
        simp [update_config_with_actual_pages, update_config_text, hcf]
      refine ⟨[content], by simp, ?_, rfl, ?_⟩
      · intro q hq
        simp at hq
        subst hq
        exact hcf
      · rw [hres]
        rfl
  · rfl

/-- C3 witness: the decomposition at a concrete content and mismatch. -/
theorem update_rewrites_every_occurrence_witness :
    ∃ parts : List String, parts ≠ [] ∧
      (∀ q ∈ parts, strContains q ("pages: " ++ pyStr (.vint 7)) = false) ∧
      joinSep ("pages: " ++ pyStr (.vint 7)) parts = "x" ∧
      joinSep ("pages: " ++ toString (3 : Int)) parts =
        (update_config_with_actual_pages "x" [("p", 3, .vint 7)]).1 :=
  update_rewrites_every_occurrence.1 "x" "p" 3 (.vint 7)
